import Mathlib

/-!
Shallow embedding of `src/async_mixin/mixin.py` (class `AsyncHttpMixin`):
a rate-limit-aware HTTP mixin with a quota guard (`call_limiter`,
`check_call_limit`), throttled single calls (`get`, `post`, `async_get`,
`async_post`), concurrent batch executors (`process_gets`, `process_posts`)
and a synchronous bridge (`pipeline`).

Modelling conventions:
- Python exceptions become an explicit `PyErr` error type threaded through
  `Except`; `except Exception` is modelled by `PyErr.isException` (SystemExit
  subclasses BaseException, not Exception, so it is not caught there).
- A Python attribute that may be unset is an `Option`; reading `none` is an
  AttributeError.  `remaining_calls` is `Option (Option HeaderVal)`: `none`
  means the attribute was never assigned, `some none` means it was set to
  `None`.
- Response header values are raw strings (requests/aiohttp expose string
  header maps and the source never parses them).  A quota attribute thus
  holds either a raw header string or a Python int (the literal defaults 0
  and 1, or a value preset by the host): `HeaderVal`, with Python truthiness
  (a string is truthy iff non-empty, an int iff nonzero) and Python `-`,
  which raises TypeError unless both operands are ints; comparing a string
  against an int with `>` also raises TypeError.
- The transport (requests / aiohttp) is a black box: each request's outcome
  is an oracle value `FetchOutcome`, either a raised transport error
  (connection failure / timeout) or a received response with status, reason,
  headers and an optional decodable body (`none` = `.json()` raises).
- The cooperative scheduler is modelled by the canonical schedule that runs
  gathered task bodies in input order; guard checks run at task-creation
  time (the `call_limiter` wrapper is synchronous and executes before the
  coroutine body starts), which the batch executors reflect.
-/

deriving instance DecidableEq for Except

namespace AsyncMixin

/-- Python exception values that the mixin's code paths can raise. -/
inductive PyErr where
  | attributeError : String → PyErr
  | valueError : String → PyErr
  | typeError : String → PyErr
  | transportError : String → PyErr
  | jsonDecodeError : String → PyErr
  | systemExit : String → PyErr
  deriving Repr, DecidableEq

/-- Whether Python's `except Exception` catches this error: `SystemExit`
subclasses `BaseException`, not `Exception`, so it is not caught. -/
def PyErr.isException : PyErr → Bool
  | .systemExit _ => false
  | _ => true

/-- Leaf of a decoded structured payload: a string, a number, an empty dict,
or a one-element Python set of a string (the source's `message` field is the
set literal of an f-string). -/
inductive JsonLeaf where
  | str : String → JsonLeaf
  | num : Int → JsonLeaf
  | emptyDict : JsonLeaf
  | strSet : String → JsonLeaf
  deriving Repr, DecidableEq

/-- Decoded structured payload (one nesting level suffices for the mixin). -/
inductive JsonVal where
  | leaf : JsonLeaf → JsonVal
  | dict : List (String × JsonLeaf) → JsonVal
  deriving Repr, DecidableEq

/-- Uniform error-shaped payload returned by `async_get` / `async_post` on a
non-200 status: a dict with empty `data`, the singleton set
of the string `Error: <reason>` under `message`, and empty `meta`. -/
def errorShape (reason : String) : JsonVal :=
  .dict [("data", .emptyDict),
         ("message", .strSet ("Error: " ++ reason)),
         ("meta", .emptyDict)]

/-- Value held by a quota attribute: either a raw header string (the source
stores header values as-is, without parsing) or a Python int (the literal
defaults 0 and 1 in `check_call_limit`, or an int preset on the host). -/
inductive HeaderVal where
  | str : String → HeaderVal
  | int : Int → HeaderVal
  deriving Repr, DecidableEq

/-- Python truthiness of such a value: a string is truthy iff non-empty
(so the string of the digit 0 is truthy), an int iff nonzero. -/
def HeaderVal.truthy : HeaderVal → Bool
  | .str s => !(s == "")
  | .int n => !(n == 0)

/-- Python subtraction on such values: int minus int yields their
difference; any operand that is a string raises TypeError. -/
def HeaderVal.sub : HeaderVal → HeaderVal → Except PyErr HeaderVal
  | .int a, .int b => .ok (.int (a - b))
  | _, _ => .error (.typeError "unsupported operand type for -")

/-- Mutable quota attributes of the host object.  `none` in the outer
`Option` means the attribute was never assigned (reading it raises
AttributeError); `remaining_calls = some none` means it was assigned
Python `None`. -/
structure QuotaState where
  call_counts : Option HeaderVal := none
  call_count_limit : Option HeaderVal := none
  remaining_calls : Option (Option HeaderVal) := none
  deriving Repr, DecidableEq

/-- Guard executed by the `call_limiter` decorator's wrapper before the
wrapped operation runs: reads `self.remaining_calls`; `None` lets the call
proceed, an int is compared with `> 0` (positive proceeds, otherwise
`ValueError('No remaining calls for API')`), and a raw header string — never
parsed by the source — raises TypeError on the `>` comparison with the
int 0.  An unset attribute raises AttributeError. -/
def call_limiter (st : QuotaState) : Except PyErr Unit :=
  match st.remaining_calls with
  | none => .error (.attributeError "remaining_calls")
  | some none => .ok ()
  | some (some (.int r)) =>
      if r > 0 then .ok () else .error (.valueError "No remaining calls for API")
  | some (some (.str _)) =>
      .error (.typeError "comparison not supported between str and int")

/-- Header-key configuration attributes of the host object; `none` means the
attribute is not set (`hasattr` is false). -/
structure QuotaConfig where
  call_count_key : Option String := none
  call_count_limit_key : Option String := none
  call_limit_remaining_key : Option String := none
  deriving Repr, DecidableEq

/-- Response headers as an association list of raw string values; lookup of
the first binding. -/
def lookupHeader (hs : List (String × String)) (k : String) : Option String :=
  (hs.find? (fun p => p.1 = k)).map Prod.snd

/-- Embedding of `resp.headers.get(key, dflt)`: the raw string value of the
header when present, the int default otherwise. -/
def headerGetD (hs : List (String × String)) (k : String) (dflt : HeaderVal) :
    HeaderVal :=
  match lookupHeader hs k with
  | some s => .str s
  | none => dflt

/-- Embedding of `check_call_limit(self, resp)`: if both count keys are
configured, store the raw count and limit header values (defaulting each
to the int 0 when absent); then, if a remaining key is configured, set
`remaining_calls` to the raw remaining header value defaulting to the int 1
when absent; otherwise, when both stored values are truthy, attempt
`limit - count` — which raises TypeError whenever either operand is a
header string — leaving `remaining_calls` unchanged when either value is
falsy.  The `elif` reads `self.call_counts` first (then
`self.call_count_limit`), raising AttributeError when unset. -/
def check_call_limit (cfg : QuotaConfig) (hs : List (String × String))
    (st : QuotaState) : Except PyErr QuotaState :=
  let st1 :=
    match cfg.call_count_key, cfg.call_count_limit_key with
    | some ck, some lk =>
        { st with call_counts := some (headerGetD hs ck (.int 0)),
                  call_count_limit := some (headerGetD hs lk (.int 0)) }
    | _, _ => st
  match cfg.call_limit_remaining_key with
  | some rk => .ok { st1 with remaining_calls := some (some (headerGetD hs rk (.int 1))) }
  | none =>
    match st1.call_counts with
    | none => .error (.attributeError "call_counts")
    | some c =>
      if c.truthy then
        match st1.call_count_limit with
        | none => .error (.attributeError "call_count_limit")
        | some l =>
          if l.truthy then
            match l.sub c with
            | .error e => .error e
            | .ok d => .ok { st1 with remaining_calls := some (some d) }
          else .ok st1
      else .ok st1

/-- Oracle for one transport request: either the transport raised (connection
failure / timeout), or a response arrived with a status code, a reason
phrase, headers, and an optional decodable body (`none` means `.json()` on
the body raises a decode error). -/
inductive FetchOutcome where
  | failure : String → FetchOutcome
  | response : Nat → String → List (String × String) → Option JsonVal → FetchOutcome
  deriving Repr, DecidableEq

/-- Body of `async_get` after the `call_limiter` guard and throttler
admission: `session.get` raising propagates; only the status assertion sits
in the `try`, so a non-200 status returns the uniform error shape, while on
a 200 status `check_call_limit` errors and a failing `response.json()`
propagate out of the coroutine. -/
def async_get_body (cfg : QuotaConfig) (st : QuotaState) (out : FetchOutcome) :
    Except PyErr (QuotaState × JsonVal) :=
  match out with
  | .failure reason => .error (.transportError reason)
  | .response status reason hs body =>
    if status = 200 then
      match check_call_limit cfg hs st with
      | .error e => .error e
      | .ok st' =>
        match body with
        | none => .error (.jsonDecodeError "response body is not valid json")
        | some j => .ok (st', j)
    else .ok (st, errorShape reason)

/-- Body of `async_post` (source lines 127-136): structurally identical to
`async_get_body` — the payload only feeds the transport, whose outcome is
already the oracle argument. -/
def async_post_body (cfg : QuotaConfig) (st : QuotaState) (out : FetchOutcome) :
    Except PyErr (QuotaState × JsonVal) :=
  match out with
  | .failure reason => .error (.transportError reason)
  | .response status reason hs body =>
    if status = 200 then
      match check_call_limit cfg hs st with
      | .error e => .error e
      | .ok st' =>
        match body with
        | none => .error (.jsonDecodeError "response body is not valid json")
        | some j => .ok (st', j)
    else .ok (st, errorShape reason)

/-- Full `async_get` single call: the synchronous `call_limiter` wrapper
runs first (at coroutine-creation time), then the coroutine body. -/
def async_get (cfg : QuotaConfig) (st : QuotaState) (out : FetchOutcome) :
    Except PyErr (QuotaState × JsonVal) :=
  match call_limiter st with
  | .error e => .error e
  | .ok _ => async_get_body cfg st out

/-- Full `async_post` single call: guard, then body. -/
def async_post (cfg : QuotaConfig) (st : QuotaState) (out : FetchOutcome) :
    Except PyErr (QuotaState × JsonVal) :=
  match call_limiter st with
  | .error e => .error e
  | .ok _ => async_post_body cfg st out

/-- Body of the synchronous `get` (source lines 77-83) after the guard:
`requests.get`; a connection failure raises uncaught; `raise_for_status`
turns a 400-599 status into an HTTPError which the source converts into
`SystemExit` (statuses outside that range, 600 and above included, do not
raise); otherwise `check_call_limit` runs and `resp.json()` may raise a
decode error. -/
def get_body (cfg : QuotaConfig) (st : QuotaState) (out : FetchOutcome) :
    Except PyErr (QuotaState × JsonVal) :=
  match out with
  | .failure reason => .error (.transportError reason)
  | .response status reason hs body =>
    if 400 ≤ status ∧ status ≤ 599 then .error (.systemExit reason)
    else
      match check_call_limit cfg hs st with
      | .error e => .error e
      | .ok st' =>
        match body with
        | none => .error (.jsonDecodeError "response body is not valid json")
        | some j => .ok (st', j)

/-- Body of the synchronous `post` (source lines 87-94): control flow of
`get_body`, except that the HTTPError handler first runs
`print(resp.json())`, so an undecodable error body raises the decode error
before `raise SystemExit` is reached. -/
def post_body (cfg : QuotaConfig) (st : QuotaState) (out : FetchOutcome) :
    Except PyErr (QuotaState × JsonVal) :=
  match out with
  | .failure reason => .error (.transportError reason)
  | .response status reason hs body =>
    if 400 ≤ status ∧ status ≤ 599 then
      match body with
      | none => .error (.jsonDecodeError "response body is not valid json")
      | some _ => .error (.systemExit reason)
    else
      match check_call_limit cfg hs st with
      | .error e => .error e
      | .ok st' =>
        match body with
        | none => .error (.jsonDecodeError "response body is not valid json")
        | some j => .ok (st', j)

/-- Full synchronous `get`: the `call_limiter` guard, then the body. -/
def get (cfg : QuotaConfig) (st : QuotaState) (out : FetchOutcome) :
    Except PyErr (QuotaState × JsonVal) :=
  match call_limiter st with
  | .error e => .error e
  | .ok _ => get_body cfg st out

/-- Full synchronous `post`: the `call_limiter` guard, then the body. -/
def post (cfg : QuotaConfig) (st : QuotaState) (out : FetchOutcome) :
    Except PyErr (QuotaState × JsonVal) :=
  match call_limiter st with
  | .error e => .error e
  | .ok _ => post_body cfg st out

/-- Value an `async_get` / `async_post` task delivers when it completes
without raising, as a function of that task's own transport outcome alone
(the quota state influences only whether the task raises, never the value):
a non-200 response degrades to the uniform error shape, a 200 response
yields its decoded body, a transport failure never delivers a value. -/
def get_value : FetchOutcome → Option JsonVal
  | .failure _ => none
  | .response status reason _ body =>
      if status = 200 then body else some (errorShape reason)

/-- Join point of `asyncio.gather` over `async_get` task bodies under the
canonical cooperative schedule (bodies run in input order, quota state
threaded through shared mutation); the first raising task fails the gather. -/
def gather_gets (cfg : QuotaConfig) :
    List FetchOutcome → QuotaState → Except PyErr (QuotaState × List JsonVal)
  | [], st => .ok (st, [])
  | o :: os, st =>
    match async_get_body cfg st o with
    | .error e => .error e
    | .ok (st', j) =>
      match gather_gets cfg os st' with
      | .error e => .error e
      | .ok (st'', js) => .ok (st'', j :: js)

/-- Embedding of `process_gets(self, urls)`: each task is created by calling
the wrapped `async_get`, whose guard runs synchronously at creation time
against the state as of batch start (no response has updated it yet), so
with at least one url the guard is checked (the same check for every url);
then all bodies are gathered. -/
def process_gets (cfg : QuotaConfig) (st : QuotaState) (urls : List String)
    (transport : String → FetchOutcome) :
    Except PyErr (QuotaState × List JsonVal) :=
  if urls.isEmpty then .ok (st, [])
  else
    match call_limiter st with
    | .error e => .error e
    | .ok _ => gather_gets cfg (urls.map transport) st

/-- Url argument as handed to `session.post`: the source can pass either a
string or (after the broadcast slip) a whole list of strings. -/
inductive UrlArg where
  | str : String → UrlArg
  | lst : List String → UrlArg
  deriving Repr, DecidableEq

/-- Embedding of the `urls` normalisation at the top of `process_posts`:
`if isinstance(urls, str) or (len(urls) == 1): urls = [urls] * len(payloads)`.
For a bare string this replicates the string; for a one-element list it
replicates the list itself (each call's url argument is that list). -/
def broadcast_urls (urls : String ⊕ List String) (k : Nat) : List UrlArg :=
  match urls with
  | .inl s => List.replicate k (.str s)
  | .inr l => if l.length = 1 then List.replicate k (.lst l) else l.map .str

/-- Call log of `process_posts`: the (url, payload) pairs handed to
`async_post`, one per iteration of `for url, payload in zip(urls, payloads)`. -/
def post_call_log (urls : String ⊕ List String) (payloads : List JsonVal) :
    List (UrlArg × JsonVal) :=
  (broadcast_urls urls payloads.length).zip payloads

/-- Join point of `asyncio.gather` over `async_post` task bodies, threading
shared quota state in input order. -/
def gather_posts (cfg : QuotaConfig) (transport : UrlArg → JsonVal → FetchOutcome) :
    List (UrlArg × JsonVal) → QuotaState → Except PyErr (QuotaState × List JsonVal)
  | [], st => .ok (st, [])
  | (u, p) :: rest, st =>
    match async_post_body cfg st (transport u p) with
    | .error e => .error e
    | .ok (st', j) =>
      match gather_posts cfg transport rest st' with
      | .error e => .error e
      | .ok (st'', js) => .ok (st'', j :: js)

/-- Embedding of `process_posts(self, urls, payloads)`: normalise `urls`,
zip with the payloads, create one guarded `async_post` task per pair (guard
checked at creation time against the batch-start state), gather all bodies. -/
def process_posts (cfg : QuotaConfig) (st : QuotaState)
    (urls : String ⊕ List String) (payloads : List JsonVal)
    (transport : UrlArg → JsonVal → FetchOutcome) :
    Except PyErr (QuotaState × List JsonVal) :=
  if (post_call_log urls payloads).isEmpty then .ok (st, [])
  else
    match call_limiter st with
    | .error e => .error e
    | .ok _ => gather_posts cfg transport (post_call_log urls payloads) st

/-- Resource-relevant host/bridge state for `pipeline`: whether the host
caches a `_session` attribute, and how many event loops have been created
and not closed. -/
structure BridgeState where
  sessionCached : Bool := false
  openLoops : Nat := 0
  deriving Repr, DecidableEq

/-- Effect of `asyncio.new_event_loop()` at the top of `pipeline`: one more
open loop. -/
def new_event_loop (st : BridgeState) : BridgeState :=
  { st with openLoops := st.openLoops + 1 }

/-- Effect of `loop.close()`. -/
def loop_close (st : BridgeState) : BridgeState :=
  { st with openLoops := st.openLoops - 1 }

/-- Embedding of `reset(self)`: deletes the cached `_session` attribute when
present, so afterwards no session is cached. -/
def reset (st : BridgeState) : BridgeState :=
  { st with sessionCached := false }

/-- How `pipeline` invokes the wrapped method: with the args spread
(`method(*args)`), with the args list as one aggregate argument
(`method(args)`), with keyword arguments (`method(**kwargs)`), or with no
arguments. -/
inductive CallForm (α : Type) where
  | spread : List α → CallForm α
  | aggregate : List α → CallForm α
  | keywords : List (String × α) → CallForm α
  | noArgs : CallForm α
  deriving Repr, DecidableEq

/-- Argument selection of `pipeline` (source lines 186-204): `None` defaults
to empty; a non-empty `args` list wins (spread when `unpack`, aggregate
otherwise), else non-empty `kwargs`, else no arguments. -/
def pipeline_call_form (args : Option (List α)) (kwargs : Option (List (String × α)))
    (unpack : Bool) : CallForm α :=
  let args := args.getD []
  let kwargs := kwargs.getD []
  if args.length ≠ 0 then
    if unpack then .spread args else .aggregate args
  else if kwargs.length ≠ 0 then .keywords kwargs
  else .noArgs

/-- Embedding of `pipeline(self, method, args, kwargs, unpack)`.  The wrapped
run is an oracle `method` from the chosen call form and the entry state to
the state it leaves behind plus its outcome.  `pipeline` creates a fresh
loop, runs the method inside `try/except Exception`, and afterwards closes
the loop and resets the session — but those two teardown statements are
plain statements after the `except` block, not a `finally`, so an error that
`except Exception` does not catch (`SystemExit`, `KeyboardInterrupt`)
propagates with the loop still open and the session still cached.  Returns
the final host state and either the propagated error or the (optional)
result, `none` standing for the `res = None` of a swallowed exception. -/
def pipeline {α β : Type} (st : BridgeState)
    (method : CallForm α → BridgeState → BridgeState × Except PyErr β)
    (args : Option (List α)) (kwargs : Option (List (String × α))) (unpack : Bool) :
    BridgeState × Except PyErr (Option β) :=
  let st1 := new_event_loop st
  match method (pipeline_call_form args kwargs unpack) st1 with
  | (st2, .ok v) => (reset (loop_close st2), .ok (some v))
  | (st2, .error e) =>
    if e.isException then (reset (loop_close st2), .ok none)
    else (st2, .error e)

/-! Theorems.  Each claim of the specification gets one theorem, preceded by
helper lemmas shared across claims. -/

/-- A task body that completes without raising delivers exactly the value
determined by its own transport outcome. -/
lemma async_get_body_ok_value {cfg : QuotaConfig} {st st' : QuotaState}
    {o : FetchOutcome} {j : JsonVal}
    (h : async_get_body cfg st o = .ok (st', j)) : get_value o = some j := by
  cases o with
  | failure r => simp [async_get_body] at h
  | response status reason hs body =>
    simp only [async_get_body] at h
    simp only [get_value]
    by_cases h200 : status = 200
    · rw [if_pos h200] at h ⊢
      cases hc : check_call_limit cfg hs st with
      | error e => rw [hc] at h; simp at h
      | ok st1 =>
        rw [hc] at h
        cases body with
        | none => simp at h
        | some j0 =>
          simp only [Except.ok.injEq, Prod.mk.injEq] at h
          rw [h.2]
    · rw [if_neg h200] at h ⊢
      simp only [Except.ok.injEq, Prod.mk.injEq] at h
      rw [h.2]

/-- Same statement for `async_post_body` (identical control flow). -/
lemma async_post_body_ok_value {cfg : QuotaConfig} {st st' : QuotaState}
    {o : FetchOutcome} {j : JsonVal}
    (h : async_post_body cfg st o = .ok (st', j)) : get_value o = some j := by
  cases o with
  | failure r => simp [async_post_body] at h
  | response status reason hs body =>
    simp only [async_post_body] at h
    simp only [get_value]
    by_cases h200 : status = 200
    · rw [if_pos h200] at h ⊢
      cases hc : check_call_limit cfg hs st with
      | error e => rw [hc] at h; simp at h
      | ok st1 =>
        rw [hc] at h
        cases body with
        | none => simp at h
        | some j0 =>
          simp only [Except.ok.injEq, Prod.mk.injEq] at h
          rw [h.2]
    · rw [if_neg h200] at h ⊢
      simp only [Except.ok.injEq, Prod.mk.injEq] at h
      rw [h.2]

/-- A task whose outcome determines no deliverable value (transport failure,
or a 200 response whose body fails to decode) always raises. -/
lemma async_get_body_fatal {cfg : QuotaConfig} {st : QuotaState} {o : FetchOutcome}
    (h : get_value o = none) : ∃ e, async_get_body cfg st o = .error e := by
  cases o with
  | failure r => exact ⟨.transportError r, rfl⟩
  | response status reason hs body =>
    simp only [get_value] at h
    by_cases h200 : status = 200
    · rw [if_pos h200] at h
      simp only [async_get_body]
      rw [if_pos h200]
      cases hc : check_call_limit cfg hs st with
      | error e => exact ⟨e, rfl⟩
      | ok st1 => rw [h]; exact ⟨.jsonDecodeError "response body is not valid json", rfl⟩
    · rw [if_neg h200] at h
      simp at h

/-- Same statement for `async_post_body`. -/
lemma async_post_body_fatal {cfg : QuotaConfig} {st : QuotaState} {o : FetchOutcome}
    (h : get_value o = none) : ∃ e, async_post_body cfg st o = .error e := by
  cases o with
  | failure r => exact ⟨.transportError r, rfl⟩
  | response status reason hs body =>
    simp only [get_value] at h
    by_cases h200 : status = 200
    · rw [if_pos h200] at h
      simp only [async_post_body]
      rw [if_pos h200]
      cases hc : check_call_limit cfg hs st with
      | error e => exact ⟨e, rfl⟩
      | ok st1 => rw [h]; exact ⟨.jsonDecodeError "response body is not valid json", rfl⟩
    · rw [if_neg h200] at h
      simp at h

/-- The gathered get results are as many as the gathered outcomes. -/
lemma gather_gets_ok_length {cfg : QuotaConfig} :
    ∀ {os : List FetchOutcome} {st st₂ : QuotaState} {js : List JsonVal},
      gather_gets cfg os st = .ok (st₂, js) → js.length = os.length
  | [], st, st₂, js, h => by
      simp only [gather_gets, Except.ok.injEq, Prod.mk.injEq] at h
      rw [← h.2]
      rfl
  | o :: os, st, st₂, js, h => by
      simp only [gather_gets] at h
      split at h
      · simp at h
      · rename_i st1 j heq1
        split at h
        · simp at h
        · rename_i st3 js3 heq2
          simp only [Except.ok.injEq, Prod.mk.injEq] at h
          rw [← h.2]
          simp [gather_gets_ok_length heq2]

/-- Each gathered get result is the value of its own outcome at the same
index. -/
lemma gather_gets_ok_get {cfg : QuotaConfig} :
    ∀ {os : List FetchOutcome} {st st₂ : QuotaState} {js : List JsonVal},
      gather_gets cfg os st = .ok (st₂, js) →
      ∀ (i : Nat) (o : FetchOutcome), os.get? i = some o → js.get? i = get_value o
  | [], st, st₂, js, h, i, o, hi => by simp at hi
  | o' :: os, st, st₂, js, h, i, o, hi => by
      simp only [gather_gets] at h
      split at h
      · simp at h
      · rename_i st1 j heq1
        split at h
        · simp at h
        · rename_i st3 js3 heq2
          simp only [Except.ok.injEq, Prod.mk.injEq] at h
          rw [← h.2]
          cases i with
          | zero =>
            simp only [List.get?] at hi ⊢
            cases hi
            exact (async_get_body_ok_value heq1).symm
          | succ n =>
            simp only [List.get?] at hi ⊢
            exact gather_gets_ok_get heq2 n o hi

/-- A member outcome that cannot deliver a value makes the whole get gather
raise. -/
lemma gather_gets_error_of_fatal {cfg : QuotaConfig} :
    ∀ {os : List FetchOutcome} {st : QuotaState} {o : FetchOutcome},
      o ∈ os → get_value o = none → ∃ e, gather_gets cfg os st = .error e
  | [], st, o, hm, hv => by simp at hm
  | o' :: os, st, o, hm, hv => by
      simp only [gather_gets]
      cases h1 : async_get_body cfg st o' with
      | error e => exact ⟨e, rfl⟩
      | ok p =>
        obtain ⟨st1, j⟩ := p
        rcases List.mem_cons.mp hm with h | h
        · subst h
          obtain ⟨e, he⟩ := @async_get_body_fatal cfg st _ hv
          rw [h1] at he
          simp at he
        · obtain ⟨e, he⟩ := @gather_gets_error_of_fatal cfg os st1 o h hv
          refine ⟨e, ?_⟩
          simp [he]

/-- The gathered post results are as many as the dispatched pairs. -/
lemma gather_posts_ok_length {cfg : QuotaConfig}
    {tr : UrlArg → JsonVal → FetchOutcome} :
    ∀ {pairs : List (UrlArg × JsonVal)} {st st₂ : QuotaState} {js : List JsonVal},
      gather_posts cfg tr pairs st = .ok (st₂, js) → js.length = pairs.length
  | [], st, st₂, js, h => by
      simp only [gather_posts, Except.ok.injEq, Prod.mk.injEq] at h
      rw [← h.2]
      rfl
  | (u, p) :: pairs, st, st₂, js, h => by
      simp only [gather_posts] at h
      split at h
      · simp at h
      · rename_i st1 j heq1
        split at h
        · simp at h
        · rename_i st3 js3 heq2
          simp only [Except.ok.injEq, Prod.mk.injEq] at h
          rw [← h.2]
          simp [gather_posts_ok_length heq2]

/-- Each gathered post result is the value of its own pair's outcome at the
same index. -/
lemma gather_posts_ok_get {cfg : QuotaConfig}
    {tr : UrlArg → JsonVal → FetchOutcome} :
    ∀ {pairs : List (UrlArg × JsonVal)} {st st₂ : QuotaState} {js : List JsonVal},
      gather_posts cfg tr pairs st = .ok (st₂, js) →
      ∀ (i : Nat) (u : UrlArg) (p : JsonVal),
        pairs.get? i = some (u, p) → js.get? i = get_value (tr u p)
  | [], st, st₂, js, h, i, u, p, hi => by simp at hi
  | (u2, p2) :: pairs, st, st₂, js, h, i, u, p, hi => by
      simp only [gather_posts] at h
      split at h
      · simp at h
      · rename_i st1 j heq1
        split at h
        · simp at h
        · rename_i st3 js3 heq2
          simp only [Except.ok.injEq, Prod.mk.injEq] at h
          rw [← h.2]
          cases i with
          | zero =>
            simp only [List.get?] at hi ⊢
            have hu : u2 = u := (congrArg Prod.fst (Option.some.injEq .. ▸ hi : (u2, p2) = (u, p)))
            have hp : p2 = p := (congrArg Prod.snd (Option.some.injEq .. ▸ hi : (u2, p2) = (u, p)))
            subst hu
            subst hp
            exact (async_post_body_ok_value heq1).symm
          | succ n =>
            simp only [List.get?] at hi ⊢
            exact gather_posts_ok_get heq2 n u p hi

/-- A member pair whose outcome cannot deliver a value makes the whole post
gather raise. -/
lemma gather_posts_error_of_fatal {cfg : QuotaConfig}
    {tr : UrlArg → JsonVal → FetchOutcome} :
    ∀ {pairs : List (UrlArg × JsonVal)} {st : QuotaState} {u : UrlArg} {p : JsonVal},
      (u, p) ∈ pairs → get_value (tr u p) = none →
      ∃ e, gather_posts cfg tr pairs st = .error e
  | [], st, u, p, hm, hv => by simp at hm
  | (u2, p2) :: pairs, st, u, p, hm, hv => by
      simp only [gather_posts]
      cases h1 : async_post_body cfg st (tr u2 p2) with
      | error e => exact ⟨e, rfl⟩
      | ok q =>
        obtain ⟨st1, j⟩ := q
        rcases List.mem_cons.mp hm with h | h
        · have hu : u = u2 := congrArg Prod.fst h
          have hp : p = p2 := congrArg Prod.snd h
          subst hu
          subst hp
          obtain ⟨e, he⟩ := @async_post_body_fatal cfg st _ hv
          rw [h1] at he
          simp at he
        · obtain ⟨e, he⟩ := @gather_posts_error_of_fatal cfg tr pairs st1 u p h hv
          refine ⟨e, ?_⟩
          simp [he]


/-- C9: the quota pre-check reads the `remaining_calls` attribute
unconditionally, so every guarded operation (get, post, async_get,
async_post) on a host that never assigned `remaining_calls` raises
AttributeError instead of allowing the call; the unknown-quota allow path is
taken exactly when `remaining_calls` was explicitly set to `None`, in which
case each guarded operation proceeds to its body. -/
theorem C9_guard_reads_attribute_unconditionally :
    ∀ (cfg : QuotaConfig) (st : QuotaState) (out : FetchOutcome),
      (st.remaining_calls = none →
        get cfg st out = .error (.attributeError "remaining_calls") ∧
        post cfg st out = .error (.attributeError "remaining_calls") ∧
        async_get cfg st out = .error (.attributeError "remaining_calls") ∧
        async_post cfg st out = .error (.attributeError "remaining_calls")) ∧
      (st.remaining_calls = some none →
        get cfg st out = get_body cfg st out ∧
        post cfg st out = post_body cfg st out ∧
        async_get cfg st out = async_get_body cfg st out ∧
        async_post cfg st out = async_post_body cfg st out) := by
  intro cfg st out
  constructor
  · intro h
    simp [get, post, async_get, async_post, call_limiter, h]
  · intro h
    simp [get, post, async_get, async_post, call_limiter, h]

/-- Witness for C9 at a concrete host state and outcome. -/
theorem C9_witness :
    get {} {} (.failure "x") = .error (.attributeError "remaining_calls") ∧
    async_get {} { remaining_calls := some none } (.failure "x") =
      async_get_body {} { remaining_calls := some none } (.failure "x") := by
  exact ⟨((C9_guard_reads_attribute_unconditionally {} {} (.failure "x")).1 rfl).1,
         ((C9_guard_reads_attribute_unconditionally {}
             { remaining_calls := some none } (.failure "x")).2 rfl).2.2.1⟩

/-- C1 counterexample: on a host that never assigned `remaining_calls`
(unknown counter), every guarded operation raises AttributeError — it is not
allowed to proceed, refuting the claim's unknown-counter clause. -/
theorem C1_counterexample :
    get {} {} (.response 200 "OK" [] (some (.leaf (.num 7)))) =
      .error (.attributeError "remaining_calls") ∧
    post {} {} (.response 200 "OK" [] (some (.leaf (.num 7)))) =
      .error (.attributeError "remaining_calls") ∧
    async_get {} {} (.response 200 "OK" [] (some (.leaf (.num 7)))) =
      .error (.attributeError "remaining_calls") ∧
    async_post {} {} (.response 200 "OK" [] (some (.leaf (.num 7)))) =
      .error (.attributeError "remaining_calls") ∧
    async_get {} {} (.response 200 "OK" [] (some (.leaf (.num 7)))) ≠
      async_get_body {} {} (.response 200 "OK" [] (some (.leaf (.num 7)))) := by
  refine ⟨rfl, rfl, rfl, rfl, ?_⟩
  decide

/-- C1 amended: whenever `remaining_calls` has been observed non-positive,
each guarded operation fails immediately with the quota ValueError, for
every transport outcome alike (so no transport I/O influences the result);
the unknown-allow path requires `remaining_calls` to have been explicitly
set to `None`, and then each operation proceeds to its body. -/
theorem C1_amended_quota_guard :
    ∀ (cfg : QuotaConfig) (st : QuotaState) (out : FetchOutcome) (r : Int),
      (st.remaining_calls = some (some (.int r)) → r ≤ 0 →
        get cfg st out = .error (.valueError "No remaining calls for API") ∧
        post cfg st out = .error (.valueError "No remaining calls for API") ∧
        async_get cfg st out = .error (.valueError "No remaining calls for API") ∧
        async_post cfg st out = .error (.valueError "No remaining calls for API")) ∧
      (st.remaining_calls = some none →
        get cfg st out = get_body cfg st out ∧
        post cfg st out = post_body cfg st out ∧
        async_get cfg st out = async_get_body cfg st out ∧
        async_post cfg st out = async_post_body cfg st out) := by
  intro cfg st out r
  constructor
  · intro h hr
    have hneg : ¬ r > 0 := not_lt.mpr hr
    simp [get, post, async_get, async_post, call_limiter, h, hneg]
  · intro h
    simp [get, post, async_get, async_post, call_limiter, h]

/-- Witness for C1 at a host state whose remaining quota is 0. -/
theorem C1_witness :
    get {} { remaining_calls := some (some (.int 0)) } (.failure "x") =
      .error (.valueError "No remaining calls for API") ∧
    async_post {} { remaining_calls := some (some (.int 0)) } (.failure "x") =
      .error (.valueError "No remaining calls for API") := by
  exact ⟨((C1_amended_quota_guard {} { remaining_calls := some (some (.int 0)) }
            (.failure "x") 0).1 rfl le_rfl).1,
         ((C1_amended_quota_guard {} { remaining_calls := some (some (.int 0)) }
            (.failure "x") 0).1 rfl le_rfl).2.2.2⟩

/-- C5 counterexample: with a remaining-header key configured and that
header absent from the response, `check_call_limit` sets `remaining_calls`
to the int 1, not to the claimed default 0. -/
theorem C5_counterexample :
    check_call_limit { call_limit_remaining_key := some "R" } [] {} =
      .ok { remaining_calls := some (some (.int 1)) } ∧
    (some (some (HeaderVal.int 1)) : Option (Option HeaderVal)) ≠
      some (some (.int 0)) := by
  exact ⟨rfl, by decide⟩

/-- C5 amended: when both count and limit keys are configured the update
stores the raw header string values, never parsing them, and defaulting
each to the int 0 when its header is absent; `remaining_calls` is then set
directly from the configured remaining header (raw string), defaulting to
the int 1 — not 0 — when that header is absent; with no remaining key
configured, the `limit - count` recomputation is attempted only when both
stored values are truthy (a non-empty string — the string of the digit 0
included — or a nonzero int), and since values taken from present headers
are strings that subtraction then raises TypeError instead of recomputing;
an int difference is stored only when both values are ints (possible only
for values not taken from headers), and `remaining_calls` is left unchanged
whenever either stored value is falsy. -/
theorem C5_amended_update :
    ∀ (hs : List (String × String)) (st : QuotaState) (ck lk rk : String),
      (check_call_limit { call_count_key := some ck, call_count_limit_key := some lk,
                          call_limit_remaining_key := some rk } hs st =
        .ok { call_counts := some (headerGetD hs ck (.int 0)),
              call_count_limit := some (headerGetD hs lk (.int 0)),
              remaining_calls := some (some (headerGetD hs rk (.int 1))) }) ∧
      (check_call_limit { call_limit_remaining_key := some rk } hs st =
        .ok { st with remaining_calls := some (some (headerGetD hs rk (.int 1))) }) ∧
      (∀ sc sl : String,
        lookupHeader hs ck = some sc → lookupHeader hs lk = some sl →
        sc ≠ "" → sl ≠ "" →
        check_call_limit { call_count_key := some ck,
                           call_count_limit_key := some lk } hs st =
          .error (.typeError "unsupported operand type for -")) ∧
      (∀ c l : Int,
        st.call_counts = some (.int c) → st.call_count_limit = some (.int l) →
        c ≠ 0 → l ≠ 0 →
        check_call_limit {} hs st =
          .ok { st with remaining_calls := some (some (.int (l - c))) }) ∧
      (st.call_counts = some (.int 0) → check_call_limit {} hs st = .ok st) := by
  intro hs st ck lk rk
  refine ⟨rfl, rfl, ?_, ?_, ?_⟩
  · intro sc sl hc hl hsc hsl
    have hsc2 : (sc == "") = false := by simp [hsc]
    have hsl2 : (sl == "") = false := by simp [hsl]
    simp [check_call_limit, headerGetD, hc, hl, HeaderVal.truthy, HeaderVal.sub,
          hsc2, hsl2]
  · intro c l hcc hcl hc0 hl0
    simp [check_call_limit, hcc, hcl, HeaderVal.truthy, HeaderVal.sub, hc0, hl0]
  · intro h0
    simp [check_call_limit, h0, HeaderVal.truthy]

/-- Witness for C5 at concrete headers and state: raw strings are stored,
and the count/limit branch raises TypeError on the string subtraction. -/
theorem C5_witness :
    check_call_limit { call_count_key := some "C", call_count_limit_key := some "L",
                       call_limit_remaining_key := some "R" }
        [("C", "3"), ("L", "10"), ("R", "7")] {} =
      .ok { call_counts := some (.str "3"), call_count_limit := some (.str "10"),
            remaining_calls := some (some (.str "7")) } ∧
    check_call_limit { call_count_key := some "C", call_count_limit_key := some "L" }
        [("C", "3"), ("L", "10")] {} =
      .error (.typeError "unsupported operand type for -") := by
  constructor
  · exact (C5_amended_update [("C", "3"), ("L", "10"), ("R", "7")] {} "C" "L" "R").1
  · exact (C5_amended_update [("C", "3"), ("L", "10")] {} "C" "L" "R").2.2.1
      "3" "10" rfl rfl (by decide) (by decide)

/-- C10: when `pipeline` is given a non-empty args list, the kwargs are
silently ignored — the chosen call form depends only on args and unpack
(spread when unpack, aggregate otherwise); kwargs are used exactly when args
is absent or empty and kwargs is non-empty. -/
theorem C10_kwargs_ignored_when_args_present :
    ∀ (α : Type) (args : List α) (kwargs kwargs2 : List (String × α)) (unpack : Bool),
      (args ≠ [] →
        pipeline_call_form (some args) (some kwargs) unpack =
          (if unpack then .spread args else .aggregate args) ∧
        pipeline_call_form (some args) (some kwargs) unpack =
          pipeline_call_form (some args) (some kwargs2) unpack) ∧
      (kwargs ≠ [] →
        pipeline_call_form (some ([] : List α)) (some kwargs) unpack = .keywords kwargs ∧
        pipeline_call_form (α := α) none (some kwargs) unpack = .keywords kwargs) := by
  intro α args kwargs kwargs2 unpack
  constructor
  · intro h
    have hl : args.length ≠ 0 := by
      simpa [List.length_eq_zero] using h
    constructor <;> simp [pipeline_call_form, hl]
  · intro h
    have hl : kwargs.length ≠ 0 := by
      simpa [List.length_eq_zero] using h
    constructor <;> simp [pipeline_call_form, hl]

/-- Witness for C10 at concrete argument lists. -/
theorem C10_witness :
    pipeline_call_form (some [JsonVal.leaf (.num 1)])
        (some [("k", JsonVal.leaf (.num 2))]) false =
      .aggregate [JsonVal.leaf (.num 1)] ∧
    pipeline_call_form (some ([] : List JsonVal))
        (some [("k", JsonVal.leaf (.num 2))]) false =
      .keywords [("k", JsonVal.leaf (.num 2))] := by
  constructor
  · exact ((C10_kwargs_ignored_when_args_present JsonVal [JsonVal.leaf (.num 1)]
      [("k", JsonVal.leaf (.num 2))] [] false).1 (by decide)).1
  · exact ((C10_kwargs_ignored_when_args_present JsonVal [JsonVal.leaf (.num 1)]
      [("k", JsonVal.leaf (.num 2))] [] false).2 (by decide)).1

/-- C6 counterexample: `pipeline` only catches `Exception`; a run that
raises `SystemExit` — exactly what the mixin's own `get`/`post` raise on an
HTTP error — propagates out of `pipeline` instead of being swallowed, and
the call does not return `None`. -/
theorem C6_counterexample :
    pipeline ({} : BridgeState)
        (fun (_ : CallForm JsonVal) (s : BridgeState) =>
          (s, (.error (.systemExit "HTTPError") : Except PyErr JsonVal)))
        none none false =
      ({ openLoops := 1 }, .error (.systemExit "HTTPError")) ∧
    ((.error (.systemExit "HTTPError") : Except PyErr (Option JsonVal)) ≠ .ok none) := by
  exact ⟨rfl, by decide⟩

/-- C6 amended: every error of class `Exception` raised during the wrapped
run is caught and `pipeline` returns `None` for that call; an error outside
the `Exception` hierarchy (`SystemExit`, as raised by the mixin's own
`get`/`post` on HTTP errors) is re-raised to the caller. -/
theorem C6_amended_exception_swallowing :
    ∀ (α β : Type) (st : BridgeState)
      (method : CallForm α → BridgeState → BridgeState × Except PyErr β)
      (args : Option (List α)) (kwargs : Option (List (String × α)))
      (unpack : Bool) (st₂ : BridgeState) (e : PyErr),
      method (pipeline_call_form args kwargs unpack) (new_event_loop st) = (st₂, .error e) →
      (e.isException = true →
        pipeline st method args kwargs unpack = (reset (loop_close st₂), .ok none)) ∧
      (e.isException = false →
        pipeline st method args kwargs unpack = (st₂, .error e)) := by
  intro α β st method args kwargs unpack st₂ e h
  constructor <;> intro hb <;> simp [pipeline, h, hb]

/-- Witness for C6 with a concrete run raising an `Exception`-class error. -/
theorem C6_witness :
    pipeline ({} : BridgeState)
        (fun (_ : CallForm JsonVal) (s : BridgeState) =>
          (s, (.error (.valueError "boom") : Except PyErr JsonVal)))
        none none false =
      (reset (loop_close { openLoops := 1 }), .ok none) :=
  (C6_amended_exception_swallowing JsonVal JsonVal {}
      (fun _ s => (s, .error (.valueError "boom"))) none none false
      { openLoops := 1 } (.valueError "boom") rfl).1 rfl

/-- C7 counterexample: a run that caches the session and then raises
`SystemExit` leaves `pipeline` without running its teardown statements (they
follow the `except Exception` block, with no `finally`), so the host keeps a
cached session and an unclosed loop after the call. -/
theorem C7_counterexample :
    pipeline ({} : BridgeState)
        (fun (_ : CallForm JsonVal) (s : BridgeState) =>
          ({ s with sessionCached := true },
           (.error (.systemExit "boom") : Except PyErr JsonVal)))
        none none false =
      ({ sessionCached := true, openLoops := 1 }, .error (.systemExit "boom")) ∧
    ({ sessionCached := true, openLoops := 1 } : BridgeState).sessionCached ≠ false ∧
    ({ sessionCached := true, openLoops := 1 } : BridgeState).openLoops ≠ 0 := by
  exact ⟨rfl, by decide, by decide⟩

/-- C7 amended: `pipeline` closes the loop it created and discards the
cached session whenever it returns — after a successful run and after a
caught `Exception`-class failure alike; but when an error outside the
`Exception` hierarchy propagates, the teardown is skipped and the host keeps
whatever loop and session state the run left behind. -/
theorem C7_amended_teardown :
    ∀ (α β : Type) (st : BridgeState)
      (method : CallForm α → BridgeState → BridgeState × Except PyErr β)
      (args : Option (List α)) (kwargs : Option (List (String × α)))
      (unpack : Bool) (st₂ : BridgeState),
      (∀ v : β,
        method (pipeline_call_form args kwargs unpack) (new_event_loop st) = (st₂, .ok v) →
        pipeline st method args kwargs unpack = (reset (loop_close st₂), .ok (some v)) ∧
        (pipeline st method args kwargs unpack).1.sessionCached = false) ∧
      (∀ e : PyErr,
        method (pipeline_call_form args kwargs unpack) (new_event_loop st) = (st₂, .error e) →
        e.isException = true →
        pipeline st method args kwargs unpack = (reset (loop_close st₂), .ok none) ∧
        (pipeline st method args kwargs unpack).1.sessionCached = false) ∧
      (∀ e : PyErr,
        method (pipeline_call_form args kwargs unpack) (new_event_loop st) = (st₂, .error e) →
        e.isException = false →
        (pipeline st method args kwargs unpack).1 = st₂) := by
  intro α β st method args kwargs unpack st₂
  refine ⟨?_, ?_, ?_⟩
  · intro v h
    constructor <;> simp [pipeline, h, reset]
  · intro e h hb
    constructor <;> simp [pipeline, h, hb, reset]
  · intro e h hb
    simp [pipeline, h, hb]

/-- Witness for C7 with a concrete successful run. -/
theorem C7_witness :
    pipeline ({} : BridgeState)
        (fun (_ : CallForm JsonVal) (s : BridgeState) =>
          ({ s with sessionCached := true },
           (.ok (JsonVal.leaf (.num 7)) : Except PyErr JsonVal)))
        none none false =
      (reset (loop_close { sessionCached := true, openLoops := 1 }),
       .ok (some (JsonVal.leaf (.num 7)))) :=
  ((C7_amended_teardown JsonVal JsonVal {}
      (fun _ s => ({ s with sessionCached := true }, .ok (JsonVal.leaf (.num 7))))
      none none false { sessionCached := true, openLoops := 1 }).1
    (JsonVal.leaf (.num 7)) rfl).1

/-- C3: every list returned by `process_gets` (resp. `process_posts`) has
exactly as many elements as the input request-descriptor list, and its
element at index i is the value determined by request i's own transport
outcome alone — independent of any other task and hence of completion
order. -/
theorem C3_order_and_length :
    (∀ (cfg : QuotaConfig) (st : QuotaState) (urls : List String)
       (tr : String → FetchOutcome) (st₂ : QuotaState) (rs : List JsonVal),
      process_gets cfg st urls tr = .ok (st₂, rs) →
      rs.length = urls.length ∧
      ∀ (i : Nat) (u : String), urls.get? i = some u → rs.get? i = get_value (tr u)) ∧
    (∀ (cfg : QuotaConfig) (st : QuotaState) (urls : String ⊕ List String)
       (payloads : List JsonVal) (tr : UrlArg → JsonVal → FetchOutcome)
       (st₂ : QuotaState) (rs : List JsonVal),
      process_posts cfg st urls payloads tr = .ok (st₂, rs) →
      rs.length = (post_call_log urls payloads).length ∧
      ∀ (i : Nat) (u : UrlArg) (p : JsonVal),
        (post_call_log urls payloads).get? i = some (u, p) →
        rs.get? i = get_value (tr u p)) := by
  constructor
  · intro cfg st urls tr st₂ rs h
    simp only [process_gets] at h
    split at h
    · rename_i hemp
      simp only [Except.ok.injEq, Prod.mk.injEq] at h
      have hnil : urls = [] := List.isEmpty_iff.mp hemp
      subst hnil
      refine ⟨by rw [← h.2]; rfl, ?_⟩
      intro i u hi
      simp at hi
    · split at h
      · simp at h
      · refine ⟨by rw [gather_gets_ok_length h, List.length_map], ?_⟩
        intro i u hi
        have hmi : (urls.map tr).get? i = some (tr u) := by
          rw [List.get?_map, hi]
          rfl
        exact gather_gets_ok_get h i (tr u) hmi
  · intro cfg st urls payloads tr st₂ rs h
    simp only [process_posts] at h
    split at h
    · rename_i hemp
      simp only [Except.ok.injEq, Prod.mk.injEq] at h
      have hnil : post_call_log urls payloads = [] := List.isEmpty_iff.mp hemp
      refine ⟨by rw [← h.2, hnil]; rfl, ?_⟩
      intro i u p hi
      rw [hnil] at hi
      simp at hi
    · split at h
      · simp at h
      · refine ⟨gather_posts_ok_length h, ?_⟩
        intro i u p hi
        exact gather_posts_ok_get h i u p hi

/-- Witness for C3 on a concrete two-element batch. -/
theorem C3_witness :
    ([JsonVal.leaf (.num 7), JsonVal.leaf (.num 7)] : List JsonVal).length =
      (["A", "B"] : List String).length ∧
    ([JsonVal.leaf (.num 7), JsonVal.leaf (.num 7)] : List JsonVal).get? 0 =
      get_value (FetchOutcome.response 200 "OK" [] (some (.leaf (.num 7)))) := by
  have h := C3_order_and_length.1 { call_limit_remaining_key := some "R" }
    { remaining_calls := some none } ["A", "B"]
    (fun _ => .response 200 "OK" [] (some (.leaf (.num 7))))
    { remaining_calls := some (some (.int 1)) }
    [JsonVal.leaf (.num 7), JsonVal.leaf (.num 7)] rfl
  exact ⟨h.1, h.2 0 "A" rfl⟩

/-- C2 counterexample: in a three-element get batch where only the middle
request has a malformed body on a 200-status response, the whole batch
raises the decode error — it is not the case that index B degrades to the
uniform error payload while A and C return their results, because only
the status assertion sits inside the source's `try`. -/
theorem C2_counterexample :
    process_gets { call_limit_remaining_key := some "R" }
        { remaining_calls := some none } ["A", "B", "C"]
        (fun u =>
          if u = "B" then .response 200 "OK" [] none
          else .response 200 "OK" [] (some (.leaf (.num 7)))) =
      .error (.jsonDecodeError "response body is not valid json") := by
  rfl

/-- C2 amended: per-request error isolation holds exactly for the non-2xx
case — in any batch (gets or posts) that returns, an index whose response
had a non-200 status carries the uniform error payload built from that
response's reason, and every other index its own result (see the order
theorem); but a transport failure (connection error / timeout), and a
malformed body on a 200 response, raise and fail the whole batch instead of
degrading. -/
theorem C2_amended_error_isolation :
    (∀ (cfg : QuotaConfig) (st : QuotaState) (urls : List String)
       (tr : String → FetchOutcome) (st₂ : QuotaState) (rs : List JsonVal),
      process_gets cfg st urls tr = .ok (st₂, rs) →
      ∀ (i : Nat) (u : String) (status : Nat) (reason : String)
        (hs : List (String × String)) (body : Option JsonVal),
        urls.get? i = some u → tr u = .response status reason hs body →
        status ≠ 200 → rs.get? i = some (errorShape reason)) ∧
    (∀ (cfg : QuotaConfig) (st : QuotaState) (urls : String ⊕ List String)
       (payloads : List JsonVal) (tr : UrlArg → JsonVal → FetchOutcome)
       (st₂ : QuotaState) (rs : List JsonVal),
      process_posts cfg st urls payloads tr = .ok (st₂, rs) →
      ∀ (i : Nat) (u : UrlArg) (p : JsonVal) (status : Nat) (reason : String)
        (hs : List (String × String)) (body : Option JsonVal),
        (post_call_log urls payloads).get? i = some (u, p) →
        tr u p = .response status reason hs body →
        status ≠ 200 → rs.get? i = some (errorShape reason)) ∧
    (∀ (cfg : QuotaConfig) (st : QuotaState) (urls : List String)
       (tr : String → FetchOutcome) (u : String) (reason : String),
      u ∈ urls → tr u = .failure reason →
      ∃ e, process_gets cfg st urls tr = .error e) ∧
    (∀ (cfg : QuotaConfig) (st : QuotaState) (urls : List String)
       (tr : String → FetchOutcome) (u : String) (reason : String)
       (hs : List (String × String)),
      u ∈ urls → tr u = .response 200 reason hs none →
      ∃ e, process_gets cfg st urls tr = .error e) ∧
    (∀ (cfg : QuotaConfig) (st : QuotaState) (urls : String ⊕ List String)
       (payloads : List JsonVal) (tr : UrlArg → JsonVal → FetchOutcome)
       (u : UrlArg) (p : JsonVal) (reason : String),
      (u, p) ∈ post_call_log urls payloads → tr u p = .failure reason →
      ∃ e, process_posts cfg st urls payloads tr = .error e) ∧
    (∀ (cfg : QuotaConfig) (st : QuotaState) (urls : String ⊕ List String)
       (payloads : List JsonVal) (tr : UrlArg → JsonVal → FetchOutcome)
       (u : UrlArg) (p : JsonVal) (reason : String)
       (hs : List (String × String)),
      (u, p) ∈ post_call_log urls payloads →
      tr u p = .response 200 reason hs none →
      ∃ e, process_posts cfg st urls payloads tr = .error e) := by
  refine ⟨?_, ?_, ?_, ?_, ?_, ?_⟩
  · intro cfg st urls tr st₂ rs h i u status reason hs body hi htr hne
    simp only [process_gets] at h
    split at h
    · rename_i hemp
      have hnil : urls = [] := List.isEmpty_iff.mp hemp
      subst hnil
      simp at hi
    · split at h
      · simp at h
      · have hmi : (urls.map tr).get? i = some (tr u) := by
          rw [List.get?_map, hi]
          rfl
        have := gather_gets_ok_get h i (tr u) hmi
        rw [this, htr]
        simp [get_value, hne]
  · intro cfg st urls payloads tr st₂ rs h i u p status reason hs body hi htr hne
    simp only [process_posts] at h
    split at h
    · rename_i hemp
      have hnil : post_call_log urls payloads = [] := List.isEmpty_iff.mp hemp
      rw [hnil] at hi
      simp at hi
    · split at h
      · simp at h
      · have := gather_posts_ok_get h i u p hi
        rw [this, htr]
        simp [get_value, hne]
  · intro cfg st urls tr u reason hm htr
    have hne : urls.isEmpty = false := by
      cases urls with
      | nil => simp at hm
      | cons a l => rfl
    simp only [process_gets, hne, Bool.false_eq_true, if_false]
    cases hcl : call_limiter st with
    | error e => exact ⟨e, rfl⟩
    | ok v =>
      have hmem : tr u ∈ urls.map tr := List.mem_map_of_mem tr hm
      have hv : get_value (tr u) = none := by rw [htr]; rfl
      obtain ⟨e, he⟩ := @gather_gets_error_of_fatal cfg (urls.map tr) st (tr u) hmem hv
      rw [he]
      exact ⟨e, rfl⟩
  · intro cfg st urls tr u reason hs hm htr
    have hne : urls.isEmpty = false := by
      cases urls with
      | nil => simp at hm
      | cons a l => rfl
    simp only [process_gets, hne, Bool.false_eq_true, if_false]
    cases hcl : call_limiter st with
    | error e => exact ⟨e, rfl⟩
    | ok v =>
      have hmem : tr u ∈ urls.map tr := List.mem_map_of_mem tr hm
      have hv : get_value (tr u) = none := by rw [htr]; simp [get_value]
      obtain ⟨e, he⟩ := @gather_gets_error_of_fatal cfg (urls.map tr) st (tr u) hmem hv
      rw [he]
      exact ⟨e, rfl⟩
  · intro cfg st urls payloads tr u p reason hm htr
    have hne : (post_call_log urls payloads).isEmpty = false := by
      cases hlog : post_call_log urls payloads with
      | nil => rw [hlog] at hm; simp at hm
      | cons a l => rfl
    simp only [process_posts, hne, Bool.false_eq_true, if_false]
    cases hcl : call_limiter st with
    | error e => exact ⟨e, rfl⟩
    | ok v =>
      have hv : get_value (tr u p) = none := by rw [htr]; rfl
      obtain ⟨e, he⟩ := @gather_posts_error_of_fatal cfg tr (post_call_log urls payloads) st u p hm hv
      rw [he]
      exact ⟨e, rfl⟩
  · intro cfg st urls payloads tr u p reason hs hm htr
    have hne : (post_call_log urls payloads).isEmpty = false := by
      cases hlog : post_call_log urls payloads with
      | nil => rw [hlog] at hm; simp at hm
      | cons a l => rfl
    simp only [process_posts, hne, Bool.false_eq_true, if_false]
    cases hcl : call_limiter st with
    | error e => exact ⟨e, rfl⟩
    | ok v =>
      have hv : get_value (tr u p) = none := by rw [htr]; simp [get_value]
      obtain ⟨e, he⟩ := @gather_posts_error_of_fatal cfg tr (post_call_log urls payloads) st u p hm hv
      rw [he]
      exact ⟨e, rfl⟩

/-- Witness for C2 on a concrete batch with one non-200 response. -/
theorem C2_witness :
    ([JsonVal.leaf (.num 7), errorShape "Not Found"] : List JsonVal).get? 1 =
      some (errorShape "Not Found") := by
  have h := C2_amended_error_isolation.1 { call_limit_remaining_key := some "R" }
    { remaining_calls := some none } ["A", "B"]
    (fun u =>
      if u = "B" then .response 404 "Not Found" [] none
      else .response 200 "OK" [] (some (.leaf (.num 7))))
    { remaining_calls := some (some (.int 1)) }
    [JsonVal.leaf (.num 7), errorShape "Not Found"] rfl
  exact h 1 "B" 404 "Not Found" [] none rfl rfl (by decide)

/-- C4: evaluation of the post broadcast at its failing input.  With a bare
string address the broadcast is correct (k calls, each pairing payload i
with the address); but with a one-element list the source replicates the
list object itself, so every call's url argument is the list `["/x"]`, not
the address `"/x"` — an invalid url for the transport. -/
theorem C4_single_address_broadcast_eval :
    post_call_log (.inr ["/x"])
        [JsonVal.leaf (.num 1), JsonVal.leaf (.num 2), JsonVal.leaf (.num 3)] =
      [(UrlArg.lst ["/x"], JsonVal.leaf (.num 1)),
       (UrlArg.lst ["/x"], JsonVal.leaf (.num 2)),
       (UrlArg.lst ["/x"], JsonVal.leaf (.num 3))] ∧
    UrlArg.lst ["/x"] ≠ UrlArg.str "/x" ∧
    post_call_log (.inl "/x")
        [JsonVal.leaf (.num 1), JsonVal.leaf (.num 2), JsonVal.leaf (.num 3)] =
      [(UrlArg.str "/x", JsonVal.leaf (.num 1)),
       (UrlArg.str "/x", JsonVal.leaf (.num 2)),
       (UrlArg.str "/x", JsonVal.leaf (.num 3))] := by
  exact ⟨rfl, by decide, rfl⟩

end AsyncMixin
